import Mathlib

/-!
A verification development for the `shift-interpreter` repository: a
tree-walking evaluator for a subset of JavaScript operating on a
`shift-ast` syntax tree.

The embedding follows the current node handler (`node-handler.ts`) and the
entry points (`index.ts`).  Parts of the newer `Interpreter` core that are
not in the repository snapshot (the binding-store lookup `getRuntimeValue`,
the hoisting passes `hoistFunctions`/`hoistVars`, function construction and
execution, and the thunked operator table of `operators.ts`) are modelled
from the specification document; each such definition says so in its doc
comment.

Modelling conventions:
* The external scope analyser is out of scope for the evaluator; its output
  is modelled by annotating every name-bearing AST node with the variable
  token (a `Nat`) that `scopeLookup.get(node)` would return, alongside the
  textual name.
* JavaScript numbers are IEEE-754 doubles; the claims under verification
  exercise only integer arithmetic, so numbers are modelled as `Int` plus a
  distinguished NaN value.  The operators `/`, `**` and `instanceof`
  (whose results leave this fragment or need prototype chains) are not
  embedded; no claim mentions them.
* Objects live in an explicit heap addressed by `Nat`; property cells are
  either data cells or accessor cells (getter/setter), mirroring the
  property descriptors installed by `ObjectExpression`.
* Evaluation is fuelled: every recursive call decreases a `Nat` fuel
  argument, and exhaustion yields the distinguished error `outOfFuel`,
  which is never catchable (it is a modelling artifact, not a JavaScript
  event).
* Function values are modelled structurally (no host-function identity);
  arrow expressions, classes, spread arguments, destructuring and `for-in`
  / `for-of` loops are not needed by any claim and are not embedded.
-/

namespace ShiftInt

/-- Binary operators of `binaryOperatorMap`, minus `/`, `**` and
`instanceof` (outside the modelled numeric/prototype fragment; unused by
the claims). -/
inductive BinOp where
  | add | sub | mul
  | eqLoose | neqLoose | eqStrict | neqStrict
  | lt | le | gt | ge
  | inOp | shl | shr | ushr | rem
  | comma | orOp | andOp
  | bitOr | bitAnd | bitXor
  deriving DecidableEq, Repr

/-- Unary operators of `unaryOperatorMap` (the `delete` entry is commented
out in the source). -/
inductive UnOp where
  | plus | minus | notOp | bnot | typeofOp | voidOp
  deriving DecidableEq, Repr

mutual

/-- Expressions: the `shift-ast` expression nodes handled by
`NodeHandler`.  `ident`, `assignVar` and `updateVar` carry the variable
token assigned by the external scope analyser next to the textual name. -/
inductive Expr where
  | litNum (n : Int)
  | litStr (s : String)
  | litBool (b : Bool)
  | litNull
  | ident (name : String) (v : Nat)
  | thisE
  | binary (op : BinOp) (l r : Expr)
  | unary (op : UnOp) (e : Expr)
  | cond (t c a : Expr)
  | assignVar (name : String) (v : Nat) (e : Expr)
  | assignStatic (obj : Expr) (field : String) (e : Expr)
  | assignComputed (obj : Expr) (key : Expr) (e : Expr)
  | updateVar (inc : Bool) (pfx : Bool) (name : String) (v : Nat)
  | call (callee : Expr) (args : List Expr)
  | staticMember (obj : Expr) (field : String)
  | computedMember (obj : Expr) (key : Expr)
  | objectLit (props : List ObjProp)
  | functionE (fn : FnDef)
  deriving Repr

/-- Object-literal properties (static property names; computed names are
not needed by the claims). -/
inductive ObjProp where
  | dataP (name : String) (e : Expr)
  | methodP (name : String) (fn : FnDef)
  | shorthand (name : String) (v : Nat)
  | getter (name : String) (fn : FnDef)
  | setter (name : String) (fn : FnDef)
  deriving Repr

/-- A function definition: formal parameters (single identifiers, with
their scope-analysis tokens) and a `FunctionBody` statement list.
Parameter defaults are not needed by the claims. -/
inductive FnDef where
  | mk (params : List (String × Nat)) (body : List Stmt)
  deriving Repr

/-- A single variable declarator: binding identifier (name and token) and
optional initialiser. -/
inductive Declarator where
  | mk (name : String) (v : Nat) (init : Option Expr)
  deriving Repr

/-- Statements: the `shift-ast` statement nodes handled by `NodeHandler`.
`varDecl`'s flag records whether the declaration kind is `var` (hoisted)
as opposed to `let`/`const`. -/
inductive Stmt where
  | exprS (e : Expr)
  | retS (e : Option Expr)
  | varDecl (isVar : Bool) (ds : List Declarator)
  | funcDecl (name : String) (v : Nat) (fn : FnDef)
  | blockS (stmts : List Stmt)
  | ifS (t : Expr) (c : Stmt) (a : Option Stmt)
  | whileS (t : Expr) (b : Stmt)
  | doWhileS (b : Stmt) (t : Expr)
  | forS (finit : Option ForInit) (t : Option Expr) (u : Option Expr) (b : Stmt)
  | brkS
  | contS
  | throwS (e : Expr)
  | tryCatchS (b : List Stmt) (pname : String) (pv : Nat) (handler : List Stmt)
  | tryFinallyS (b : List Stmt) (c : Option (String × Nat × List Stmt)) (fin : List Stmt)
  | emptyS
  deriving Repr

/-- A `for` statement initialiser: a declaration or an expression. -/
inductive ForInit where
  | decl (isVar : Bool) (ds : List Declarator)
  | exprI (e : Expr)
  deriving Repr

end

/-- Runtime values.  `numV`/`nanV` model the integer fragment of IEEE
doubles; `objV` is a heap address; `closure` is an interpreter callable
(`createFunction` result); `hostErr` models host error objects
(ReferenceError, TypeError) when caught as exception payloads. -/
inductive Value where
  | undefV
  | nullV
  | boolV (b : Bool)
  | numV (n : Int)
  | nanV
  | strV (s : String)
  | objV (addr : Nat)
  | closure (fn : FnDef)
  | hostErr (kind : String) (msg : String)
  deriving Repr

/-- A property cell: a data cell or an accessor cell.  By construction an
accessor cell carries no data value. -/
inductive PropCell where
  | dataC (v : Value)
  | accessor (get : Option FnDef) (set : Option FnDef)
  deriving Repr

/-- An object: its own properties in insertion order. -/
abbrev Obj := List (String × PropCell)

/-- Evaluation errors: reference errors (unresolved identifiers), type
errors, runtime errors, program-thrown values, and the fuel-exhaustion
artifact. -/
inductive Err where
  | refErr (name : String)
  | typeErr (msg : String)
  | runtimeErr (msg : String)
  | thrown (v : Value)
  | outOfFuel
  deriving Repr

/-- Interpreter state: the binding store `variableMap`, the context stack
(innermost context first; the source stores the innermost context at the
end of the array and searches from the end), the heap, and the three
control-flow flags. -/
structure St where
  vars : List (Nat × Value)
  ctxs : List Value
  heap : List Obj
  returning : Bool
  breaking : Bool
  continuing : Bool
  deriving Repr

/-- Result of an evaluation step: a value or an error, each together with
the state at that point (side effects performed before an exception are
kept, as in the host language). -/
inductive Res (α : Type) where
  | ok (a : α) (s : St)
  | err (e : Err) (s : St)
  deriving Repr

/-- Sequencing of evaluation results (used by the operator table, which
receives the right operand as a thunk). -/
def Res.bind {α β : Type} : Res α → (α → St → Res β) → Res β
  | .ok a s, f => f a s
  | .err e s, _ => .err e s

/-! ### Pure helpers on values, objects and state -/

/-- `variableMap.set`: bind a variable token (newest binding shadows). -/
def setVar (m : List (Nat × Value)) (k : Nat) (v : Value) : List (Nat × Value) :=
  (k, v) :: m

/-- `variableMap.get` / `variableMap.has`. -/
def lookupVar (m : List (Nat × Value)) (k : Nat) : Option Value :=
  match m with
  | [] => none
  | (k', v) :: rest => bif k' == k then some v else lookupVar rest k

/-- Own-property lookup on an object. -/
def objGetCell (o : Obj) (k : String) : Option PropCell :=
  match o with
  | [] => none
  | (k', c) :: rest => bif k' == k then some c else objGetCell rest k

/-- Install a data cell, replacing in place or appending (JS property
writes keep the original insertion position). -/
def objSetData (o : Obj) (k : String) (v : Value) : Obj :=
  match o with
  | [] => [(k, .dataC v)]
  | (k', c) :: rest =>
      bif k' == k then (k, .dataC v) :: rest else (k', c) :: objSetData rest k v

/-- `Object.defineProperty` with an accessor descriptor: replace in place
or append. -/
def objDefineAccessor (o : Obj) (k : String) (g s : Option FnDef) : Obj :=
  match o with
  | [] => [(k, .accessor g s)]
  | (k', c) :: rest =>
      bif k' == k then (k, .accessor g s) :: rest
      else (k', c) :: objDefineAccessor rest k g s

/-- Read an object from the heap (missing address reads as empty). -/
def heapGet (h : List Obj) (a : Nat) : Obj :=
  match h, a with
  | [], _ => []
  | o :: _, 0 => o
  | _ :: rest, n + 1 => heapGet rest n

/-- Write an object back to the heap. -/
def heapSet (h : List Obj) (a : Nat) (o : Obj) : List Obj :=
  match h, a with
  | [], _ => []
  | _ :: rest, 0 => o :: rest
  | x :: rest, n + 1 => x :: heapSet rest n o

/-- JS truthiness. -/
def truthy : Value → Bool
  | .undefV => false
  | .nullV => false
  | .boolV b => b
  | .numV n => n != 0
  | .nanV => false
  | .strV s => s != ""
  | .objV _ => true
  | .closure _ => true
  | .hostErr _ _ => true

/-- JS `typeof`. -/
def jsTypeof : Value → String
  | .undefV => "undefined"
  | .nullV => "object"
  | .boolV _ => "boolean"
  | .numV _ => "number"
  | .nanV => "number"
  | .strV _ => "string"
  | .objV _ => "object"
  | .closure _ => "function"
  | .hostErr _ _ => "object"

/-- ToPrimitive on the modelled fragment: objects stringify as the default
`Object.prototype.toString`, callables as a function source placeholder. -/
def toPrimitive : Value → Value
  | .objV _ => .strV "[object Object]"
  | .closure _ => .strV "function"
  | .hostErr k m => .strV (k ++ ": " ++ m)
  | v => v

/-- ToString on primitives (integer fragment). -/
def primToStr : Value → String
  | .undefV => "undefined"
  | .nullV => "null"
  | .boolV b => if b then "true" else "false"
  | .numV n => toString n
  | .nanV => "NaN"
  | .strV s => s
  | .objV _ => "[object Object]"
  | .closure _ => "function"
  | .hostErr k m => k ++ ": " ++ m

/-- ToNumber on the integer fragment (`none` is NaN). -/
def primToNum : Value → Option Int
  | .undefV => none
  | .nullV => some 0
  | .boolV b => some (if b then 1 else 0)
  | .numV n => some n
  | .nanV => none
  | .strV s => if s = "" then some 0 else s.toInt?
  | .objV _ => none
  | .closure _ => none
  | .hostErr _ _ => none

/-- Numeric result constructor: NaN-propagating. -/
def numRes : Option Int → Value
  | some n => .numV n
  | none => .nanV

/-- JS `+`: string concatenation if either primitive is a string,
otherwise numeric addition. -/
def jsAdd (l r : Value) : Value :=
  let lp := toPrimitive l
  let rp := toPrimitive r
  match lp, rp with
  | .strV a, b => .strV (a ++ primToStr b)
  | a, .strV b => .strV (primToStr a ++ b)
  | a, b =>
      match primToNum a, primToNum b with
      | some x, some y => .numV (x + y)
      | _, _ => .nanV

/-- JS `-`: numeric subtraction through ToNumber. -/
def jsSub (l r : Value) : Value :=
  match primToNum (toPrimitive l), primToNum (toPrimitive r) with
  | some x, some y => .numV (x - y)
  | _, _ => .nanV

/-- JS `*`: numeric multiplication through ToNumber. -/
def jsMul (l r : Value) : Value :=
  match primToNum (toPrimitive l), primToNum (toPrimitive r) with
  | some x, some y => .numV (x * y)
  | _, _ => .nanV

/-- JS `%` (truncated remainder, sign of the dividend; division by zero is
NaN). -/
def jsRem (l r : Value) : Value :=
  match primToNum (toPrimitive l), primToNum (toPrimitive r) with
  | some x, some y =>
      if y = 0 then .nanV
      else
        let m : Int := (x.natAbs % y.natAbs : Nat)
        .numV (if x < 0 then -m else m)
  | _, _ => .nanV

/-- ToInt32 of the integer fragment (NaN becomes 0). -/
def toInt32 (v : Option Int) : Int :=
  match v with
  | none => 0
  | some n =>
      let m := n % 4294967296
      if m ≥ 2147483648 then m - 4294967296 else m

/-- ToUint32 of the integer fragment. -/
def toUint32 (v : Option Int) : Nat :=
  match v with
  | none => 0
  | some n => (n % 4294967296).toNat

/-- Signed reinterpretation of a 32-bit natural. -/
def ofUint32 (n : Nat) : Int :=
  if n ≥ 2147483648 then (n : Int) - 4294967296 else n

/-- JS `&` through ToInt32/ToUint32 coercions. -/
def jsBitAnd (l r : Value) : Value :=
  let a := toUint32 (primToNum (toPrimitive l))
  let b := toUint32 (primToNum (toPrimitive r))
  .numV (ofUint32 ((a &&& b) % 4294967296))

/-- JS `|` through ToInt32/ToUint32 coercions. -/
def jsBitOr (l r : Value) : Value :=
  let a := toUint32 (primToNum (toPrimitive l))
  let b := toUint32 (primToNum (toPrimitive r))
  .numV (ofUint32 ((a ||| b) % 4294967296))

/-- JS `^` through ToInt32/ToUint32 coercions. -/
def jsBitXor (l r : Value) : Value :=
  let a := toUint32 (primToNum (toPrimitive l))
  let b := toUint32 (primToNum (toPrimitive r))
  .numV (ofUint32 ((a ^^^ b) % 4294967296))

/-- JS `<<`. -/
def jsShl (l r : Value) : Value :=
  let a := toUint32 (primToNum (toPrimitive l))
  let sh := toUint32 (primToNum (toPrimitive r)) % 32
  .numV (ofUint32 ((a <<< sh) % 4294967296))

/-- JS `>>` (sign-propagating). -/
def jsShr (l r : Value) : Value :=
  let a := toInt32 (primToNum (toPrimitive l))
  let sh := toUint32 (primToNum (toPrimitive r)) % 32
  .numV (Int.fdiv a (2 ^ sh))

/-- JS `>>>` (zero-filling). -/
def jsUshr (l r : Value) : Value :=
  let a := toUint32 (primToNum (toPrimitive l))
  let sh := toUint32 (primToNum (toPrimitive r)) % 32
  .numV (a >>> sh)

/-- JS `<`: lexicographic when both primitives are strings, otherwise
numeric (NaN compares false). -/
def jsLt (l r : Value) : Value :=
  match toPrimitive l, toPrimitive r with
  | .strV a, .strV b => .boolV (decide (a < b))
  | a, b =>
      match primToNum a, primToNum b with
      | some x, some y => .boolV (decide (x < y))
      | _, _ => .boolV false

/-- JS `<=`: as `<`. -/
def jsLe (l r : Value) : Value :=
  match toPrimitive l, toPrimitive r with
  | .strV a, .strV b => .boolV (decide (a < b) || a == b)
  | a, b =>
      match primToNum a, primToNum b with
      | some x, some y => .boolV (decide (x ≤ y))
      | _, _ => .boolV false

/-- JS `>`: as `<` with the operands swapped. -/
def jsGt (l r : Value) : Value :=
  match toPrimitive l, toPrimitive r with
  | .strV a, .strV b => .boolV (decide (b < a))
  | a, b =>
      match primToNum a, primToNum b with
      | some x, some y => .boolV (decide (y < x))
      | _, _ => .boolV false

/-- JS `>=`: as `<=` with the operands swapped. -/
def jsGe (l r : Value) : Value :=
  match toPrimitive l, toPrimitive r with
  | .strV a, .strV b => .boolV (decide (b < a) || a == b)
  | a, b =>
      match primToNum a, primToNum b with
      | some x, some y => .boolV (decide (y ≤ x))
      | _, _ => .boolV false

/-- JS loose equality (`==`) on the modelled fragment: `undefined`/`null`
cross-equal; objects and callables compare by identity (callables
structurally, see the header note); otherwise booleans and objects coerce
and a string/number mix compares numerically. -/
def jsEqLoose (l r : Value) : Bool :=
  match l, r with
  | .undefV, .undefV => true
  | .undefV, .nullV => true
  | .nullV, .undefV => true
  | .nullV, .nullV => true
  | .undefV, _ => false
  | _, .undefV => false
  | .nullV, _ => false
  | _, .nullV => false
  | .objV a, .objV b => a = b
  | .hostErr a b, .hostErr c d => a = c && b = d
  | l, r =>
      match toPrimitive l, toPrimitive r with
      | .strV a, .strV b => a = b
      | a, b =>
          match primToNum a, primToNum b with
          | some x, some y => x = y
          | _, _ => false

/-- JS strict equality (`===`): same tag and payload; NaN is unequal to
everything; objects compare by heap address.  Callables compare
structurally (the claims never compare callables). -/
def jsEqStrict (l r : Value) : Bool :=
  match l, r with
  | .undefV, .undefV => true
  | .nullV, .nullV => true
  | .boolV a, .boolV b => a = b
  | .numV a, .numV b => a = b
  | .strV a, .strV b => a = b
  | .objV a, .objV b => a = b
  | .hostErr a b, .hostErr c d => a = c && b = d
  | _, _ => false

/-- The non-short-circuit operator primitives.  Modelled from the spec for
the operator table of `operators.ts` (not under src/); the data operations
agree with the older table in src/src/interpreter.ts.  `in` consults the
heap; all other operations are data operations on values. -/
def applyBinStrict (op : BinOp) (l r : Value) (s : St) : Res Value :=
  match op with
  | .add => .ok (jsAdd l r) s
  | .sub => .ok (jsSub l r) s
  | .mul => .ok (jsMul l r) s
  | .eqLoose => .ok (.boolV (jsEqLoose l r)) s
  | .neqLoose => .ok (.boolV (! jsEqLoose l r)) s
  | .eqStrict => .ok (.boolV (jsEqStrict l r)) s
  | .neqStrict => .ok (.boolV (! jsEqStrict l r)) s
  | .lt => .ok (jsLt l r) s
  | .le => .ok (jsLe l r) s
  | .gt => .ok (jsGt l r) s
  | .ge => .ok (jsGe l r) s
  | .inOp =>
      match r with
      | .objV a =>
          .ok (.boolV (objGetCell (heapGet s.heap a) (primToStr (toPrimitive l))).isSome) s
      | _ => .err (.typeErr "Cannot use in operator to search in a non-object") s
  | .shl => .ok (jsShl l r) s
  | .shr => .ok (jsShr l r) s
  | .ushr => .ok (jsUshr l r) s
  | .rem => .ok (jsRem l r) s
  | .bitOr => .ok (jsBitOr l r) s
  | .bitAnd => .ok (jsBitAnd l r) s
  | .bitXor => .ok (jsBitXor l r) s
  | .comma => .ok r s
  | .orOp => .ok (if truthy l then l else r) s
  | .andOp => .ok (if truthy l then r else l) s

/-- The three operators whose table entries force the thunk only on
demand. -/
def BinOp.short : BinOp → Bool
  | .andOp => true
  | .orOp => true
  | .comma => true
  | _ => false

/-- Modelled from the spec: the thunked binary operator table of
`operators.ts` (not under src/).  `NodeHandler.BinaryExpression` passes the
right operand as a thunk; the entries for `&&`, `||` and `,` are JS
`l && r()`, `l || r()` and `r()`, forcing the thunk exactly when those
expressions evaluate it; every other entry forces the thunk immediately. -/
def binOpFn (op : BinOp) (l : Value) (thunk : St → Res Value) (s : St) : Res Value :=
  match op with
  | .andOp => bif truthy l then thunk s else .ok l s
  | .orOp => bif truthy l then .ok l s else thunk s
  | .comma => thunk s
  | _ => Res.bind (thunk s) fun r s' => applyBinStrict op l r s'

/-- The unary operator primitives of `unaryOperatorMap`. -/
def applyUnary : UnOp → Value → Value
  | .plus, v => numRes (primToNum (toPrimitive v))
  | .minus, v =>
      match primToNum (toPrimitive v) with
      | some n => .numV (-n)
      | none => .nanV
  | .notOp, v => .boolV (! truthy v)
  | .bnot, v => .numV (-(toInt32 (primToNum (toPrimitive v)) + 1))
  | .typeofOp, v => .strV (jsTypeof v)
  | .voidOp, _ => .undefV

/-! ### Context stack, hoisting, error payloads -/

/-- `Interpreter.pushContext`. -/
def pushCtx (c : Value) (s : St) : St := { s with ctxs := c :: s.ctxs }

/-- `Interpreter.popContext`. -/
def popCtx (s : St) : St := { s with ctxs := s.ctxs.tail }

/-- `Interpreter.getCurrentContext`. -/
def currentCtx (s : St) : Value := s.ctxs.headD .undefV

/-- The ambient-fallback membership test `variable.name in contexts[i]`
(own properties of the modelled context objects; non-objects bind no
names). -/
def ctxHas (h : List Obj) (c : Value) (name : String) : Bool :=
  match c with
  | .objV a => (objGetCell (heapGet h a) name).isSome
  | _ => false

/-- The ambient-fallback search: the first context (innermost outward)
that binds the name. -/
def findCtx (h : List Obj) (name : String) (cs : List Value) : Option Value :=
  match cs with
  | [] => none
  | c :: rest => bif ctxHas h c name then some c else findCtx h name rest

/-- Modelled from the spec: `hoistFunctions` (not under src/) — install
each function declaration of the block as a binding of its name's variable
token to a freshly constructed callable, in statement order. -/
def hoistFunctions (stmts : List Stmt) (s : St) : St :=
  match stmts with
  | [] => s
  | .funcDecl _ v fn :: rest =>
      hoistFunctions rest { s with vars := setVar s.vars v (.closure fn) }
  | _ :: rest => hoistFunctions rest s

/-- Pre-declare the declarators of one `var` declaration to undefined. -/
def hoistVarDecls (ds : List Declarator) (m : List (Nat × Value)) :
    List (Nat × Value) :=
  match ds with
  | [] => m
  | .mk _ v _ :: rest => hoistVarDecls rest (setVar m v .undefV)

/-- Modelled from the spec: `hoistVars` (not under src/) — pre-declare each
`var` binding of the block to undefined. -/
def hoistVars (stmts : List Stmt) (s : St) : St :=
  match stmts with
  | [] => s
  | .varDecl true ds :: rest =>
      hoistVars rest { s with vars := hoistVarDecls ds s.vars }
  | _ :: rest => hoistVars rest s

/-- Function declarations are filtered out of the statement walk (already
hoisted). -/
def Stmt.isFnDecl : Stmt → Bool
  | .funcDecl _ _ _ => true
  | _ => false

/-- `statements.filter(stmt => stmt.type !== 'FunctionDeclaration')`. -/
def filterFns (stmts : List Stmt) : List Stmt :=
  match stmts with
  | [] => []
  | st :: rest => bif st.isFnDecl then filterFns rest else st :: filterFns rest

/-- The exception payload bound by a catch clause: program-thrown values
are passed through; evaluator errors are caught as host error objects. -/
def errToValue : Err → Value
  | .thrown v => v
  | .refErr n => .hostErr "ReferenceError" (n ++ " is not defined")
  | .typeErr m => .hostErr "TypeError" m
  | .runtimeErr m => .hostErr "Error" m
  | .outOfFuel => .undefV

/-- Fuel exhaustion is a modelling artifact and is never caught. -/
def Err.catchable : Err → Bool
  | .outOfFuel => false
  | _ => true

/-- Accumulate a getter or setter half into the per-name descriptor slots
(`batchOperations` of `NodeHandler.ObjectExpression`, in first-seen
order). -/
def batchSet (b : List (String × Option FnDef × Option FnDef)) (name : String)
    (isGet : Bool) (fn : FnDef) : List (String × Option FnDef × Option FnDef) :=
  match b with
  | [] => [(name, bif isGet then (some fn, none) else (none, some fn))]
  | (k, g, st) :: rest =>
      bif k == name then
        (k, bif isGet then (some fn, st) else (g, some fn)) :: rest
      else (k, g, st) :: batchSet rest name isGet fn

/-- Install the accumulated accessor descriptors
(`Object.defineProperty(obj, prop, {get, set, configurable: true})` for
each batch entry, in batch order). -/
def applyBatch (b : List (String × Option FnDef × Option FnDef)) (o : Obj) : Obj :=
  match b with
  | [] => o
  | (k, g, st) :: rest => applyBatch rest (objDefineAccessor o k g st)

/-- Parameter binding on call: bind each formal parameter's token to the
corresponding positional argument, undefined when absent. -/
def bindParams (params : List (String × Nat)) (args : List Value)
    (m : List (Nat × Value)) : List (Nat × Value) :=
  match params, args with
  | [], _ => m
  | (_, v) :: ps, [] => bindParams ps [] (setVar m v .undefV)
  | (_, v) :: ps, a :: rest => bindParams ps rest (setVar m v a)

/-! ### The evaluator

One function per handler group of `NodeHandler` (node-handler.ts), with a
fuel argument; every recursive call decreases the fuel.  Sequencing is
written as explicit matches on the intermediate `Res`: an error short-
circuits, carrying the state at the point of failure. -/

mutual

/-- Expression dispatch: the expression cases of `NodeHandler`. -/
def evalExpr : Nat → Expr → St → Res Value
  | 0, _, s => .err .outOfFuel s
  | n + 1, e, s =>
    match e with
    | .litNum v => .ok (.numV v) s
    | .litStr v => .ok (.strV v) s
    | .litBool b => .ok (.boolV b) s
    | .litNull => .ok .nullV s
    | .ident name v => getRuntimeValue n name v s
    | .thisE => .ok (currentCtx s) s
    | .binary op l r =>
        -- NodeHandler.BinaryExpression: evaluate the left operand, pass
        -- the right operand as a thunk to the operator primitive
        match evalExpr n l s with
        | .ok lv s1 => binOpFn op lv (evalExpr n r) s1
        | .err er s1 => .err er s1
    | .unary op e1 =>
        -- NodeHandler.UnaryExpression: a ReferenceError from the operand
        -- is converted to the string "undefined" when the operator is
        -- typeof and the operand is a bare identifier
        match evalExpr n e1 s with
        | .ok v s1 => .ok (applyUnary op v) s1
        | .err er s1 =>
            match op, e1, er with
            | .typeofOp, .ident _ _, .refErr _ => .ok (.strV "undefined") s1
            | _, _, _ => .err er s1
    | .cond t c a =>
        match evalExpr n t s with
        | .ok tv s1 => bif truthy tv then evalExpr n c s1 else evalExpr n a s1
        | .err er s1 => .err er s1
    | .assignVar _ v e1 =>
        -- updateVariableValue stores into the binding store and returns
        -- the stored value
        match evalExpr n e1 s with
        | .ok ev s1 => .ok ev { s1 with vars := setVar s1.vars v ev }
        | .err er s1 => .err er s1
    | .assignStatic objE field e1 =>
        match evalExpr n objE s with
        | .ok ov s1 =>
            match evalExpr n e1 s1 with
            | .ok ev s2 => setProp n ov field ev s2
            | .err er s2 => .err er s2
        | .err er s1 => .err er s1
    | .assignComputed objE keyE e1 =>
        match evalExpr n objE s with
        | .ok ov s1 =>
            match evalExpr n keyE s1 with
            | .ok kv s2 =>
                match evalExpr n e1 s2 with
                | .ok ev s3 => setProp n ov (primToStr (toPrimitive kv)) ev s3
                | .err er s3 => .err er s3
            | .err er s2 => .err er s2
        | .err er s1 => .err er s1
    | .updateVar inc pfx _ v =>
        match getRuntimeValue n "" v s with
        | .ok cur s1 =>
            let nxt := bif inc then jsAdd cur (.numV 1) else jsSub cur (.numV 1)
            .ok (bif pfx then nxt else cur) { s1 with vars := setVar s1.vars v nxt }
        | .err er s1 => .err er s1
    | .call callee args =>
        -- NodeHandler.CallExpression: arguments first, then the callee;
        -- member callees compute the receiver from the member object
        match evalArgs n args s with
        | .ok argv s1 =>
            (match callee with
             | .staticMember objE field =>
                 match evalExpr n objE s1 with
                 | .ok recv s2 =>
                     match getProp n recv field s2 with
                     | .ok fv s3 => applyCall n fv argv recv s3
                     | .err er s3 => .err er s3
                 | .err er s2 => .err er s2
             | .computedMember objE keyE =>
                 match evalExpr n objE s1 with
                 | .ok recv s2 =>
                     match evalExpr n keyE s2 with
                     | .ok kv s3 =>
                         match getProp n recv (primToStr (toPrimitive kv)) s3 with
                         | .ok fv s4 => applyCall n fv argv recv s4
                         | .err er s4 => .err er s4
                     | .err er s3 => .err er s3
                 | .err er s2 => .err er s2
             | other =>
                 match evalExpr n other s1 with
                 | .ok fv s2 => applyCall n fv argv (currentCtx s2) s2
                 | .err er s2 => .err er s2)
        | .err er s1 => .err er s1
    | .staticMember objE field =>
        match evalExpr n objE s with
        | .ok ov s1 => getProp n ov field s1
        | .err er s1 => .err er s1
    | .computedMember objE keyE =>
        match evalExpr n objE s with
        | .ok ov s1 =>
            match evalExpr n keyE s1 with
            | .ok kv s2 => getProp n ov (primToStr (toPrimitive kv)) s2
            | .err er s2 => .err er s2
        | .err er s1 => .err er s1
    | .objectLit props =>
        match evalObjProps n props [] [] s with
        | .ok pr s1 =>
            .ok (.objV s1.heap.length)
              { s1 with heap := s1.heap ++ [applyBatch pr.2 pr.1] }
        | .err er s1 => .err er s1
    | .functionE fn => .ok (.closure fn) s

/-- Argument list evaluation, in order (spread arguments are not needed by
the claims). -/
def evalArgs : Nat → List Expr → St → Res (List Value)
  | 0, _, s => .err .outOfFuel s
  | _ + 1, [], s => .ok [] s
  | n + 1, e :: rest, s =>
      match evalExpr n e s with
      | .ok v s1 =>
          match evalArgs n rest s1 with
          | .ok vs s2 => .ok (v :: vs) s2
          | .err er s2 => .err er s2
      | .err er s1 => .err er s1

/-- The call dispatch tail of `NodeHandler.CallExpression`: an interpreter
callable executes; for any other callee value the source constructs
`new TypeError(...)` but does not throw it, so the handler completes
normally and the call yields undefined. -/
def applyCall : Nat → Value → List Value → Value → St → Res Value
  | 0, _, _, _, s => .err .outOfFuel s
  | n + 1, .closure fn, args, recv, s => callFn n fn args recv s
  | _ + 1, _, _, _, s => .ok .undefV s

/-- Modelled from the spec: interpreter-callable execution (§4.3; the
`createFunction`/`InterpreterFunction` machinery is not under src/): push a
context record carrying the receiver, bind each formal parameter, reset
the returning flag, evaluate the body via the FunctionBody handler, pop
the context (also on abrupt exit), clear the returning flag, yield the
value. -/
def callFn : Nat → FnDef → List Value → Value → St → Res Value
  | 0, _, _, _, s => .err .outOfFuel s
  | n + 1, .mk params body, args, recv, s =>
      match evalFnBody n body
        { pushCtx recv s with
          vars := bindParams params args s.vars, returning := false } with
      | .ok v s4 => .ok v { popCtx s4 with returning := false }
      | .err e s4 => .err e (popCtx s4)

/-- Property read `object[name]`: a data cell yields its value; an
accessor cell invokes its getter with the object as receiver (undefined
when the getter half is absent); missing properties read as undefined;
reads on undefined/null raise a type error. -/
def getProp : Nat → Value → String → St → Res Value
  | 0, _, _, s => .err .outOfFuel s
  | n + 1, .objV a, k, s =>
      match objGetCell (heapGet s.heap a) k with
      | some (.dataC v) => .ok v s
      | some (.accessor (some g) _) => callFn n g [] (.objV a) s
      | some (.accessor none _) => .ok .undefV s
      | none => .ok .undefV s
  | _ + 1, .undefV, k, s =>
      .err (.typeErr ("Cannot read property " ++ k ++ " of undefined")) s
  | _ + 1, .nullV, k, s =>
      .err (.typeErr ("Cannot read property " ++ k ++ " of null")) s
  | _ + 1, _, _, s => .ok .undefV s

/-- Property write `object[name] = value`: an accessor cell invokes its
setter with the object as receiver (a write with no setter half is a
silent no-op); otherwise the data cell is created or overwritten.  The
assignment expression yields the assigned value. -/
def setProp : Nat → Value → String → Value → St → Res Value
  | 0, _, _, _, s => .err .outOfFuel s
  | n + 1, .objV a, k, v, s =>
      match objGetCell (heapGet s.heap a) k with
      | some (.accessor _ (some setter)) =>
          match callFn n setter [v] (.objV a) s with
          | .ok _ s1 => .ok v s1
          | .err er s1 => .err er s1
      | some (.accessor _ none) => .ok v s
      | _ => .ok v { s with heap := heapSet s.heap a (objSetData (heapGet s.heap a) k v) }
  | _ + 1, .undefV, k, _, s =>
      .err (.typeErr ("Cannot set property " ++ k ++ " of undefined")) s
  | _ + 1, .nullV, k, _, s =>
      .err (.typeErr ("Cannot set property " ++ k ++ " of null")) s
  | _ + 1, _, _, v, s => .ok v s

/-- Modelled from the spec: the binding-store lookup `getRuntimeValue` of
the newer interpreter core (not under src/).  Resolve the identifier's
variable token in the binding store; on a miss, search the ambient context
stack from innermost outward by the textual name (the older
`Interpreter.getVariableValue` in src/src/interpreter.ts performs the same
search) and read the property off the first context that binds it; if no
context binds the name, raise a reference error (the spec and the
ReferenceError handling in `NodeHandler.UnaryExpression` fix the current
behaviour as raising; the older revision returned undefined). -/
def getRuntimeValue : Nat → String → Nat → St → Res Value
  | 0, _, _, s => .err .outOfFuel s
  | n + 1, name, v, s =>
      match lookupVar s.vars v with
      | some val => .ok val s
      | none =>
          match findCtx s.heap name s.ctxs with
          | some c => getProp n c name s
          | none => .err (.refErr name) s

/-- The property loop of `NodeHandler.ObjectExpression`: data, method and
shorthand properties write data cells in source order; getter and setter
properties accumulate into the per-name descriptor batch. -/
def evalObjProps : Nat → List ObjProp → Obj →
    List (String × Option FnDef × Option FnDef) → St →
    Res (Obj × List (String × Option FnDef × Option FnDef))
  | 0, _, _, _, s => .err .outOfFuel s
  | _ + 1, [], o, b, s => .ok (o, b) s
  | n + 1, p :: rest, o, b, s =>
      match p with
      | .dataP name e =>
          match evalExpr n e s with
          | .ok v s1 => evalObjProps n rest (objSetData o name v) b s1
          | .err er s1 => .err er s1
      | .methodP name fn => evalObjProps n rest (objSetData o name (.closure fn)) b s
      | .shorthand name v =>
          match getRuntimeValue n name v s with
          | .ok val s1 => evalObjProps n rest (objSetData o name val) b s1
          | .err er s1 => .err er s1
      | .getter name fn => evalObjProps n rest o (batchSet b name true fn) s
      | .setter name fn => evalObjProps n rest o (batchSet b name false fn) s

/-- Statement dispatch: the statement cases of `NodeHandler`. -/
def evalStmt : Nat → Stmt → St → Res Value
  | 0, _, s => .err .outOfFuel s
  | n + 1, stmt, s =>
    match stmt with
    | .exprS e => evalExpr n e s
    | .retS e =>
        -- ReturnStatement: evaluate, then set the returning flag
        match evalOptExpr n e s with
        | .ok v s1 => .ok v { s1 with returning := true }
        | .err er s1 => .err er s1
    | .varDecl _ ds => evalVarDecls n ds s
    | .funcDecl _ v fn =>
        -- NodeHandler.FunctionDeclaration (reached only outside the
        -- filtered block walks): bind the name to a fresh callable
        .ok .undefV { s with vars := setVar s.vars v (.closure fn) }
    | .blockS stmts => evalBlockFull n stmts s
    | .ifS t c a =>
        match evalExpr n t s with
        | .ok tv s1 =>
            bif truthy tv then evalStmt n c s1
            else
              match a with
              | some alt => evalStmt n alt s1
              | none => .ok .undefV s1
        | .err er s1 => .err er s1
    | .whileS t b =>
        match evalWhileIter n t b s with
        | .ok _ s1 => .ok .undefV s1
        | .err er s1 => .err er s1
    | .doWhileS b t =>
        match evalDoWhileIter n b t s with
        | .ok _ s1 => .ok .undefV s1
        | .err er s1 => .err er s1
    | .forS finit t u b =>
        match
          (match finit with
           | some (.decl _ ds) => evalVarDecls n ds s
           | some (.exprI e) => evalExpr n e s
           | none => .ok .undefV s)
        with
        | .ok _ s1 =>
            match evalForIter n t u b s1 with
            | .ok _ s2 => .ok .undefV s2
            | .err er s2 => .err er s2
        | .err er s1 => .err er s1
    | .brkS => .ok .undefV { s with breaking := true }
    | .contS => .ok .undefV { s with continuing := true }
    | .throwS e =>
        match evalExpr n e s with
        | .ok v s1 => .err (.thrown v) s1
        | .err er s1 => .err er s1
    | .tryCatchS b _ pv handler =>
        -- NodeHandler.TryCatchStatement: bind the payload to the catch
        -- parameter and evaluate the catch body; its exceptions propagate
        match evalBlockFull n b s with
        | .ok v s1 => .ok v s1
        | .err e s1 =>
            bif e.catchable then
              evalBlockFull n handler { s1 with vars := setVar s1.vars pv (errToValue e) }
            else .err e s1
    | .tryFinallyS b c fin =>
        -- NodeHandler.TryFinallyStatement: the finalizer runs on both
        -- normal and abrupt completion; on normal completion its value
        -- overwrites returnValue, on abrupt completion the exception is
        -- re-raised after the finalizer (unless the finalizer itself
        -- raises)
        match
          (match c with
           | none => evalBlockFull n b s
           | some (_, pv, handler) =>
               match evalBlockFull n b s with
               | .ok v s1 => .ok v s1
               | .err e s1 =>
                   bif e.catchable then
                     evalBlockFull n handler { s1 with vars := setVar s1.vars pv (errToValue e) }
                   else .err e s1)
        with
        | .ok _ s1 => evalBlockFull n fin s1
        | .err e s1 =>
            bif e.catchable then
              match evalBlockFull n fin s1 with
              | .ok _ s2 => .err e s2
              | .err e2 s2 => .err e2 s2
            else .err e s1
    | .emptyS => .ok .undefV s

/-- `declareVariables`: for each declarator evaluate the initialiser
(undefined when absent) and bind the declarator's token.  The declaration
produces no value. -/
def evalVarDecls : Nat → List Declarator → St → Res Value
  | 0, _, s => .err .outOfFuel s
  | _ + 1, [], s => .ok .undefV s
  | n + 1, .mk _ v finit :: rest, s =>
      match evalOptExpr n finit s with
      | .ok iv s1 => evalVarDecls n rest { s1 with vars := setVar s1.vars v iv }
      | .err er s1 => .err er s1

/-- `evaluate(null)` returns undefined (absent optional expressions). -/
def evalOptExpr : Nat → Option Expr → St → Res Value
  | 0, _, s => .err .outOfFuel s
  | _ + 1, none, s => .ok .undefV s
  | n + 1, some e, s => evalExpr n e s

/-- The statement walk shared by the Block and Script handlers: evaluate
every statement in order, each value overwriting the previous; no
control-flow flag is consulted. -/
def evalStmtList : Nat → List Stmt → Value → St → Res Value
  | 0, _, _, s => .err .outOfFuel s
  | _ + 1, [], v, s => .ok v s
  | n + 1, stmt :: rest, _, s =>
      match evalStmt n stmt s with
      | .ok v1 s1 => evalStmtList n rest v1 s1
      | .err er s1 => .err er s1

/-- The statement walk of the FunctionBody handler: as `evalStmtList`, but
stop after any statement that leaves the returning flag set. -/
def evalFnStmts : Nat → List Stmt → Value → St → Res Value
  | 0, _, _, s => .err .outOfFuel s
  | _ + 1, [], v, s => .ok v s
  | n + 1, stmt :: rest, _, s =>
      match evalStmt n stmt s with
      | .ok v1 s1 => bif s1.returning then .ok v1 s1 else evalFnStmts n rest v1 s1
      | .err e s1 => .err e s1

/-- The statement walk of `NodeHandler.loopBlock`: evaluate each statement
(values discarded), stopping after any statement that leaves the breaking
or the continuing flag set. -/
def evalLoopStmts : Nat → List Stmt → St → Res Unit
  | 0, _, s => .err .outOfFuel s
  | _ + 1, [], s => .ok () s
  | n + 1, stmt :: rest, s =>
      match evalStmt n stmt s with
      | .ok _ s1 =>
          bif s1.breaking then .ok () s1
          else bif s1.continuing then .ok () s1
          else evalLoopStmts n rest s1
      | .err e s1 => .err e s1

/-- `NodeHandler.loopBlock`: for a block body, re-hoist the block's
functions and vars and walk its filtered statements; otherwise walk the
single body statement. -/
def evalLoopBlock : Nat → Stmt → St → Res Unit
  | 0, _, s => .err .outOfFuel s
  | n + 1, .blockS stmts, s =>
      evalLoopStmts n (filterFns stmts) (hoistVars stmts (hoistFunctions stmts s))
  | n + 1, stmt, s => evalLoopStmts n [stmt] s

/-- The iteration of `NodeHandler.ForStatement`: while the test is truthy,
run the loop block; a pending break is cleared and ends the loop; then the
update runs, and a pending continue is cleared before the next test. -/
def evalForIter : Nat → Option Expr → Option Expr → Stmt → St → Res Unit
  | 0, _, _, _, s => .err .outOfFuel s
  | n + 1, t, u, b, s =>
      match evalOptExpr n t s with
      | .ok tv s1 =>
          bif truthy tv then
            match evalLoopBlock n b s1 with
            | .ok _ s2 =>
                bif s2.breaking then .ok () { s2 with breaking := false }
                else
                  match evalOptExpr n u s2 with
                  | .ok _ s3 =>
                      bif s3.continuing then evalForIter n t u b { s3 with continuing := false }
                      else evalForIter n t u b s3
                  | .err er s3 => .err er s3
            | .err er s2 => .err er s2
          else .ok () s1
      | .err er s1 => .err er s1

/-- The iteration of `NodeHandler.WhileStatement`: the continuing check
precedes the breaking check. -/
def evalWhileIter : Nat → Expr → Stmt → St → Res Unit
  | 0, _, _, s => .err .outOfFuel s
  | n + 1, t, b, s =>
      match evalExpr n t s with
      | .ok tv s1 =>
          bif truthy tv then
            match evalLoopBlock n b s1 with
            | .ok _ s2 =>
                bif s2.continuing then evalWhileIter n t b { s2 with continuing := false }
                else bif s2.breaking then .ok () { s2 with breaking := false }
                else evalWhileIter n t b s2
            | .err er s2 => .err er s2
          else .ok () s1
      | .err er s1 => .err er s1

/-- The iteration of `NodeHandler.DoWhileStatement`: run the body first; a
pending continue is cleared and jumps to the test. -/
def evalDoWhileIter : Nat → Stmt → Expr → St → Res Unit
  | 0, _, _, s => .err .outOfFuel s
  | n + 1, b, t, s =>
      match evalLoopBlock n b s with
      | .ok _ s1 =>
          bif s1.continuing then
            match evalExpr n t { s1 with continuing := false } with
            | .ok tv s2 => bif truthy tv then evalDoWhileIter n b t s2 else .ok () s2
            | .err er s2 => .err er s2
          else bif s1.breaking then .ok () { s1 with breaking := false }
          else
            match evalExpr n t s1 with
            | .ok tv s2 => bif truthy tv then evalDoWhileIter n b t s2 else .ok () s2
            | .err er s2 => .err er s2
      | .err er s1 => .err er s1

/-- The Block handler (also the Script handler, whose body is identical):
hoist the block's function declarations, pre-declare its vars, then walk
the statements with function declarations filtered out. -/
def evalBlockFull : Nat → List Stmt → St → Res Value
  | 0, _, s => .err .outOfFuel s
  | n + 1, stmts, s =>
      evalStmtList n (filterFns stmts) .undefV (hoistVars stmts (hoistFunctions stmts s))

/-- The FunctionBody handler: as the Block handler, but the walk stops
early once the returning flag is set. -/
def evalFnBody : Nat → List Stmt → St → Res Value
  | 0, _, s => .err .outOfFuel s
  | n + 1, stmts, s =>
      evalFnStmts n (filterFns stmts) .undefV (hoistVars stmts (hoistFunctions stmts s))

end

/-- The state `interpretTree` (index.ts) starts from: an empty binding
store, the ambient context object (at heap address 0) pushed as the only
context, and all control-flow flags clear. -/
def initSt (ctx : Obj) : St :=
  { vars := [], ctxs := [.objV 0], heap := [ctx],
    returning := false, breaking := false, continuing := false }

/-- `interpretTree` (index.ts): construct an interpreter, load the tree,
push the ambient context as the outermost context, and run the Script
handler. -/
def runScript (fuel : Nat) (prog : List Stmt) (ctx : Obj) : Res Value :=
  evalBlockFull fuel prog (initSt ctx)

/-- The value component of a run (the value `interpretTree` returns). -/
def runValue (r : Res Value) : Option Value :=
  match r with
  | .ok v _ => some v
  | .err _ _ => none

/-! ### Concrete programs

Embeddings of the concrete scripts used to settle the claims.  Variable
tokens are assigned as the scope analyser would: one token per lexical
binding, shared by all its occurrences. -/

/-- `function f(){ if (true) return 'in'; return 'out'; } f();`
(spec scenario 6). -/
def returnInIfProgram : List Stmt := [
  .funcDecl "f" 0 (.mk [] [
    .ifS (.litBool true) (.retS (some (.litStr "in"))) none,
    .retS (some (.litStr "out"))]),
  .exprS (.call (.ident "f" 0) [])]

/-- `function g(){ for (let i = 0; i < 1; i = i + 1) { return 'in'; } } g();`
— a return nested in a loop body. -/
def returnInLoopProgram : List Stmt := [
  .funcDecl "g" 0 (.mk [] [
    .forS (some (.decl false [.mk "i" 1 (some (.litNum 0))]))
          (some (.binary .lt (.ident "i" 1) (.litNum 1)))
          (some (.assignVar "i" 1 (.binary .add (.ident "i" 1) (.litNum 1))))
          (.blockS [.retS (some (.litStr "in"))])]),
  .exprS (.call (.ident "g" 0) [])]

/-- `null();` — a call whose callee is not callable. -/
def callNullProgram : List Stmt := [.exprS (.call .litNull [])]

/-- `a(); function a(){ return 2 }` — a call placed before the function
declaration it refers to. -/
def forwardCallProgram : List Stmt := [
  .exprS (.call (.ident "a" 0) []),
  .funcDecl "a" 0 (.mk [] [.retS (some (.litNum 2))])]

/-- `let b = 0; for (let a = 1; a <= 2; a++) {for (let i = 1; i < 10; i++)
{break; b++;}; b = b + a;} b;` (spec scenario 2). -/
def nestedBreakProgram : List Stmt := [
  .varDecl false [.mk "b" 0 (some (.litNum 0))],
  .forS (some (.decl false [.mk "a" 1 (some (.litNum 1))]))
        (some (.binary .le (.ident "a" 1) (.litNum 2)))
        (some (.updateVar true false "a" 1))
        (.blockS [
          .forS (some (.decl false [.mk "i" 2 (some (.litNum 1))]))
                (some (.binary .lt (.ident "i" 2) (.litNum 10)))
                (some (.updateVar true false "i" 2))
                (.blockS [.brkS, .exprS (.updateVar true false "b" 0)]),
          .emptyS,
          .exprS (.assignVar "b" 0 (.binary .add (.ident "b" 0) (.ident "a" 1)))]),
  .exprS (.ident "b" 0)]

/-- `let b = 0; for (let a = 1; a <= 2; a++) {for (let i = 1; i < 10; i++)
{b++; continue; b++;}; b = b + a;} b;` (the nested-continue test of the
repository). -/
def nestedContinueProgram : List Stmt := [
  .varDecl false [.mk "b" 0 (some (.litNum 0))],
  .forS (some (.decl false [.mk "a" 1 (some (.litNum 1))]))
        (some (.binary .le (.ident "a" 1) (.litNum 2)))
        (some (.updateVar true false "a" 1))
        (.blockS [
          .forS (some (.decl false [.mk "i" 2 (some (.litNum 1))]))
                (some (.binary .lt (.ident "i" 2) (.litNum 10)))
                (some (.updateVar true false "i" 2))
                (.blockS [.exprS (.updateVar true false "b" 0), .contS,
                          .exprS (.updateVar true false "b" 0)]),
          .emptyS,
          .exprS (.assignVar "b" 0 (.binary .add (.ident "b" 0) (.ident "a" 1)))]),
  .exprS (.ident "b" 0)]

/-- `for (let j = 0; j < 1; j = j + 1) { { continue; break; } }` — the
loop body is a nested plain block that sets the continuing flag and then
the breaking flag (the Block handler consults no control-flow flag, so it
evaluates the `break` after the `continue`). -/
def leakingInnerLoop : Stmt :=
  .forS (some (.decl false [.mk "j" 2 (some (.litNum 0))]))
        (some (.binary .lt (.ident "j" 2) (.litNum 1)))
        (some (.assignVar "j" 2 (.binary .add (.ident "j" 2) (.litNum 1))))
        (.blockS [.blockS [.contS, .brkS]])

/-- `let r = 0; for (let i = 0; i < 3; i = i + 1) { <leakingInnerLoop>
r = r + 1; } r;` — the continuing flag leaked by the inner loop makes the
outer loop skip `r = r + 1` on every iteration. -/
def signalLeakProgram : List Stmt := [
  .varDecl false [.mk "r" 0 (some (.litNum 0))],
  .forS (some (.decl false [.mk "i" 1 (some (.litNum 0))]))
        (some (.binary .lt (.ident "i" 1) (.litNum 3)))
        (some (.assignVar "i" 1 (.binary .add (.ident "i" 1) (.litNum 1))))
        (.blockS [
          leakingInnerLoop,
          .exprS (.assignVar "r" 0 (.binary .add (.ident "r" 0) (.litNum 1)))]),
  .exprS (.ident "r" 0)]

/-- `let a = { set b(c) {this._b = c + 10}, get b(){return this._b} };
a.b = 22; a.b;` (spec scenario 5). -/
def accessorProgram : List Stmt := [
  .varDecl false [.mk "a" 0 (some (.objectLit [
    .setter "b" (.mk [("c", 1)] [
      .exprS (.assignStatic .thisE "_b" (.binary .add (.ident "c" 1) (.litNum 10)))]),
    .getter "b" (.mk [] [.retS (some (.staticMember .thisE "_b"))])]))],
  .exprS (.assignStatic (.ident "a" 0) "b" (.litNum 22)),
  .exprS (.staticMember (.ident "a" 0) "b")]

/-- `5; let x = 3;` — a script whose final statement is a variable
declaration. -/
def lastDeclProgram : List Stmt :=
  [.exprS (.litNum 5), .varDecl false [.mk "x" 0 (some (.litNum 3))]]

/-- `(function h(){ try { return 1; } finally { 2; } })` declared and
called: the finalizer's value replaces the returned 1. -/
def finallyOverwriteProgram : List Stmt := [
  .funcDecl "h" 0 (.mk [] [
    .tryFinallyS [.retS (some (.litNum 1))] none [.exprS (.litNum 2)]]),
  .exprS (.call (.ident "h" 0) [])]

/-! ### Helper lemmas -/

theorem res_bind_ok {α β : Type} (a : α) (s : St) (f : α → St → Res β) :
    Res.bind (.ok a s) f = f a s := rfl

theorem res_bind_err {α β : Type} (e : Err) (s : St) (f : α → St → Res β) :
    Res.bind (.err e s) f = .err e s := rfl

/-- A context search over contexts that all miss the name finds nothing. -/
theorem findCtx_eq_none_of_all_misses (h : List Obj) (name : String) :
    ∀ cs : List Value, (∀ c ∈ cs, ctxHas h c name = false) →
      findCtx h name cs = none := by
  intro cs
  induction cs with
  | nil => intro _; rfl
  | cons c rest ih =>
      intro hall
      have hc := hall c (List.mem_cons_self c rest)
      simp only [findCtx, hc, cond_false]
      exact ih (fun c' hc' => hall c' (List.mem_cons_of_mem c hc'))

/-- A context search returns the innermost context that binds the name. -/
theorem findCtx_first_hit (h : List Obj) (name : String) :
    ∀ (pre : List Value) (c : Value) (rest : List Value),
      (∀ c' ∈ pre, ctxHas h c' name = false) → ctxHas h c name = true →
      findCtx h name (pre ++ c :: rest) = some c := by
  intro pre
  induction pre with
  | nil => intro c rest _ hc; simp only [List.nil_append, findCtx, hc, cond_true]
  | cons p pre' ih =>
      intro c rest hall hc
      have hp := hall p (List.mem_cons_self p pre')
      simp only [List.cons_append, findCtx, hp, cond_false]
      exact ih c rest (fun c' hc' => hall c' (List.mem_cons_of_mem p hc')) hc

/-- Binding a different token leaves a lookup unchanged. -/
theorem lookupVar_setVar_ne (m : List (Nat × Value)) (k v : Nat) (val : Value)
    (h : k ≠ v) : lookupVar (setVar m k val) v = lookupVar m v := by
  simp only [setVar, lookupVar]
  have : (k == v) = false := by
    simp only [beq_eq_false_iff_ne, ne_eq]; exact h
  simp [this]

/-- Hoisting functions over a block with no function declaration for a
token leaves that token's binding unchanged. -/
theorem hoistFunctions_lookup_of_absent :
    ∀ (stmts : List Stmt) (s : St) (v : Nat),
      (∀ name fn, Stmt.funcDecl name v fn ∉ stmts) →
      lookupVar (hoistFunctions stmts s).vars v = lookupVar s.vars v := by
  intro stmts
  induction stmts with
  | nil => intro s v _; rfl
  | cons st rest ih =>
      intro s v habs
      have hrest : ∀ name fn, Stmt.funcDecl name v fn ∉ rest :=
        fun name fn hm => habs name fn (List.mem_cons_of_mem _ hm)
      cases st
      case funcDecl name' v' fn' =>
        have hne : v' ≠ v := by
          intro heq
          exact habs name' fn' (heq ▸ List.mem_cons_self _ _)
        simp only [hoistFunctions]
        rw [ih _ v hrest]
        exact lookupVar_setVar_ne _ _ _ _ hne
      all_goals (simp only [hoistFunctions]; exact ih _ v hrest)

/-- After hoisting, a token declared by exactly one function declaration
of the block is bound to that declaration's fresh callable. -/
theorem hoistFunctions_lookup_mem :
    ∀ (stmts : List Stmt) (s : St) (name : String) (v : Nat) (fn : FnDef),
      Stmt.funcDecl name v fn ∈ stmts →
      (∀ name' fn', Stmt.funcDecl name' v fn' ∈ stmts → name' = name ∧ fn' = fn) →
      lookupVar (hoistFunctions stmts s).vars v = some (.closure fn) := by
  intro stmts
  induction stmts with
  | nil => intro s name v fn hm _; cases hm
  | cons st rest ih =>
      intro s name v fn hm huniq
      have huniq' : ∀ name' fn', Stmt.funcDecl name' v fn' ∈ rest → name' = name ∧ fn' = fn :=
        fun n' f' h' => huniq n' f' (List.mem_cons_of_mem _ h')
      by_cases hrest : ∃ name' fn', Stmt.funcDecl name' v fn' ∈ rest
      · obtain ⟨name', fn', hm'⟩ := hrest
        obtain ⟨hn, hf⟩ := huniq' name' fn' hm'
        rw [hn, hf] at hm'
        cases st
        all_goals (simp only [hoistFunctions]; exact ih _ name v fn hm' huniq')
      · push_neg at hrest
        rcases List.mem_cons.mp hm with heq | hmr
        · rw [← heq]
          simp only [hoistFunctions]
          rw [hoistFunctions_lookup_of_absent rest _ v (fun n' f' h' => hrest n' f' h')]
          simp [setVar, lookupVar]
        · exact absurd hmr (hrest name fn)

/-- Pre-declaring declarators that do not mention a token leaves its
binding unchanged. -/
theorem hoistVarDecls_lookup_of_absent :
    ∀ (ds : List Declarator) (m : List (Nat × Value)) (v : Nat),
      (∀ name init, Declarator.mk name v init ∉ ds) →
      lookupVar (hoistVarDecls ds m) v = lookupVar m v := by
  intro ds
  induction ds with
  | nil => intro m v _; rfl
  | cons d rest ih =>
      intro m v habs
      cases d with
      | mk n' v' i' =>
          have hne : v' ≠ v := by
            intro heq
            exact habs n' i' (heq ▸ List.mem_cons_self _ _)
          simp only [hoistVarDecls]
          rw [ih _ v (fun name init hm => habs name init (List.mem_cons_of_mem _ hm))]
          exact lookupVar_setVar_ne _ _ _ _ hne
/-- Pre-declaring the `var` declarators of one declaration binds every
declared token to undefined. -/
theorem hoistVarDecls_lookup_mem :
    ∀ (ds : List Declarator) (m : List (Nat × Value)) (name : String) (v : Nat)
      (init : Option Expr), Declarator.mk name v init ∈ ds →
      lookupVar (hoistVarDecls ds m) v = some .undefV := by
  intro ds
  induction ds with
  | nil => intro m name v init hm; cases hm
  | cons d rest ih =>
      intro m name v init hm
      cases d with
      | mk n' v' i' =>
          by_cases hrest : ∃ name2 init2, Declarator.mk name2 v init2 ∈ rest
          · obtain ⟨n2, i2, hm'⟩ := hrest
            simp only [hoistVarDecls]
            exact ih _ n2 v i2 hm'
          · push_neg at hrest
            rcases List.mem_cons.mp hm with heq | hmr
            · cases heq
              simp only [hoistVarDecls]
              rw [hoistVarDecls_lookup_of_absent rest _ v hrest]
              simp [setVar, lookupVar]
            · exact absurd hmr (hrest name init)


/-- Hoisting vars over a block none of whose `var` declarations mention a
token leaves that token's binding unchanged. -/
theorem hoistVars_lookup_of_absent :
    ∀ (stmts : List Stmt) (s : St) (v : Nat),
      (∀ ds name init, Stmt.varDecl true ds ∈ stmts → Declarator.mk name v init ∉ ds) →
      lookupVar (hoistVars stmts s).vars v = lookupVar s.vars v := by
  intro stmts
  induction stmts with
  | nil => intro s v _; rfl
  | cons st rest ih =>
      intro s v habs
      have hrest : ∀ ds name init, Stmt.varDecl true ds ∈ rest →
          Declarator.mk name v init ∉ ds :=
        fun ds name init hm => habs ds name init (List.mem_cons_of_mem _ hm)
      cases st
      case varDecl isV ds' =>
        cases isV
        · simp only [hoistVars]; exact ih _ v hrest
        · have habs' : ∀ name init, Declarator.mk name v init ∉ ds' :=
            fun name init => habs ds' name init (List.mem_cons_self _ _)
          simp only [hoistVars]
          rw [ih _ v hrest]
          exact hoistVarDecls_lookup_of_absent ds' _ v habs'
      all_goals (simp only [hoistVars]; exact ih _ v hrest)

/-- After hoisting, every token declared by a `var` declarator of the
block is bound to undefined. -/
theorem hoistVars_lookup_mem :
    ∀ (stmts : List Stmt) (s : St) (ds : List Declarator) (name : String)
      (v : Nat) (init : Option Expr),
      Stmt.varDecl true ds ∈ stmts → Declarator.mk name v init ∈ ds →
      lookupVar (hoistVars stmts s).vars v = some .undefV := by
  intro stmts
  induction stmts with
  | nil => intro s ds name v init hm _; cases hm
  | cons st rest ih =>
      intro s ds name v init hm hd
      by_cases hrest : ∃ ds2 n2 i2, Stmt.varDecl true ds2 ∈ rest ∧ Declarator.mk n2 v i2 ∈ ds2
      · obtain ⟨ds2, n2, i2, hm2, hd2⟩ := hrest
        cases st
        all_goals try (simp only [hoistVars]; exact ih _ ds2 n2 v i2 hm2 hd2)
        all_goals
          (rename_i isV ds'
           cases isV <;> (simp only [hoistVars]; exact ih _ ds2 n2 v i2 hm2 hd2))
      · push_neg at hrest
        rcases List.mem_cons.mp hm with heq | hmr
        · rw [← heq]
          simp only [hoistVars]
          rw [hoistVars_lookup_of_absent rest _ v
            (fun ds2 n2 i2 hm2 => hrest ds2 n2 i2 hm2)]
          exact hoistVarDecls_lookup_mem ds _ name v init hd
        · exact absurd hd (hrest ds name init hmr)

/-- Every statement surviving the function-declaration filter is not a
function declaration. -/
theorem mem_filterFns_not_fnDecl :
    ∀ (stmts : List Stmt) (st : Stmt), st ∈ filterFns stmts → st.isFnDecl = false := by
  intro stmts
  induction stmts with
  | nil => intro st hm; cases hm
  | cons hd rest ih =>
      intro st hm
      simp only [filterFns] at hm
      cases hfd : hd.isFnDecl with
      | true => rw [hfd] at hm; exact ih st hm
      | false =>
          rw [hfd] at hm
          simp only [cond_false] at hm
          rcases List.mem_cons.mp hm with heq | hmr
          · rw [heq]; exact hfd
          · exact ih st hmr

/-- The function-declaration filter distributes over append. -/
theorem filterFns_append (l1 l2 : List Stmt) :
    filterFns (l1 ++ l2) = filterFns l1 ++ filterFns l2 := by
  induction l1 with
  | nil => rfl
  | cons hd rest ih =>
      simp only [List.cons_append, filterFns]
      cases hd.isFnDecl <;> simp [ih]

/-- A variable declaration that completes normally produces undefined. -/
theorem evalVarDecls_ok_value :
    ∀ (n : Nat) (ds : List Declarator) (s : St) (v : Value) (s' : St),
      evalVarDecls n ds s = .ok v s' → v = .undefV := by
  intro n
  induction n with
  | zero => intro ds s v s' h; simp [evalVarDecls] at h
  | succ m ih =>
      intro ds s v s' h
      cases ds with
      | nil =>
          simp only [evalVarDecls] at h
          cases h
          rfl
      | cons d rest =>
          cases d with
          | mk dn dv dinit =>
              simp only [evalVarDecls] at h
              cases hop : evalOptExpr m dinit s with
              | ok iv s1 => rw [hop] at h; exact ih rest _ v s' h
              | err e s1 => rw [hop] at h; cases h

/-- A statement walk ending in a variable declaration that completes
normally yields undefined, whatever the earlier statements produced. -/
theorem evalStmtList_append_decl_ok :
    ∀ (l : List Stmt) (n : Nat) (isV : Bool) (ds : List Declarator)
      (v0 v : Value) (s s' : St),
      evalStmtList n (l ++ [.varDecl isV ds]) v0 s = .ok v s' → v = .undefV := by
  intro l
  induction l with
  | nil =>
      intro n isV ds v0 v s s' h
      cases n with
      | zero => simp [evalStmtList] at h
      | succ m =>
          simp only [List.nil_append, evalStmtList] at h
          cases hst : evalStmt m (.varDecl isV ds) s with
          | ok v1 s1 =>
              rw [hst] at h
              cases m with
              | zero => simp [evalStmtList] at h
              | succ k =>
                  simp only [evalStmtList] at h
                  simp only [evalStmt] at hst
                  have hv1 : v1 = .undefV := evalVarDecls_ok_value k ds s v1 s1 hst
                  injection h with h1 h2
                  rw [← h1]
                  exact hv1
          | err e s1 => rw [hst] at h; cases h
  | cons st rest ih =>
      intro n isV ds v0 v s s' h
      cases n with
      | zero => simp [evalStmtList] at h
      | succ m =>
          simp only [List.cons_append, evalStmtList] at h
          cases hst : evalStmt m st s with
          | ok v1 s1 => rw [hst] at h; exact ih m isV ds v1 v s1 s' h
          | err e s1 => rw [hst] at h; cases h

/-! ### Claim theorems -/

/-- C9: For every AST and every ambient context, two runs of the
interpreter on that AST with equal contexts yield equal result values and
equal observable side effects: `runScript` returns the result value
together with the final state (binding store, context stack and heap), and
it is a pure function of the tree and the context, so equal inputs give
equal outputs.  The source evaluator consults no clock, randomness or
other input. -/
theorem c9_deterministic_evaluation (fuel : Nat) (prog : List Stmt)
    (ctx1 ctx2 : Obj) (h : ctx1 = ctx2) :
    runScript fuel prog ctx1 = runScript fuel prog ctx2 := by
  rw [h]

/-- Witness for C9 at a concrete tree and context. -/
theorem c9_deterministic_evaluation_witness :
    runScript 3 [Stmt.emptyS] [] = runScript 3 [Stmt.emptyS] [] :=
  c9_deterministic_evaluation 3 [Stmt.emptyS] [] [] rfl

/-- C4: For every call expression whose callee evaluates to a value that
is not an interpreter callable, the claim says a type error is raised and
propagates.  The code (`NodeHandler.CallExpression`) instead constructs
`new TypeError(...)` without throwing it, so the handler completes
normally: the general conjunct shows that `applyCall` on any non-callable
yields undefined with the state unchanged, and the concrete conjunct shows
that the script `null();` evaluates to undefined rather than raising. -/
theorem c4_call_non_callable_completes_normally :
    (∀ (n : Nat) (fv : Value) (args : List Value) (recv : Value) (s : St),
        (∀ fn, fv ≠ Value.closure fn) →
        applyCall (n + 1) fv args recv s = .ok .undefV s)
    ∧ runValue (runScript 5 callNullProgram []) = some Value.undefV := by
  constructor
  · intro n fv args recv s h
    cases fv
    case closure fn => exact absurd rfl (h fn)
    all_goals rfl
  · simp +decide [callNullProgram, runScript, runValue, initSt, evalBlockFull,
      evalStmtList, evalStmt, evalExpr, evalArgs, applyCall, hoistFunctions,
      hoistVars, filterFns, Stmt.isFnDecl]

/-- Witness for C4 at a concrete non-callable callee. -/
theorem c4_call_non_callable_witness :
    applyCall 1 (Value.numV 5) [] Value.undefV (initSt []) = .ok .undefV (initSt []) :=
  c4_call_non_callable_completes_normally.1 0 (Value.numV 5) [] Value.undefV
    (initSt []) (fun fn h => Value.noConfusion h)

/-- C10: For every script whose final statement is a variable declaration
statement, the top-level evaluation returns undefined regardless of the
values of earlier statements: the Script handler keeps the value of the
last evaluated statement and `declareVariables` produces no value. -/
theorem c10_script_ending_in_declaration (n : Nat) (pre : List Stmt)
    (isV : Bool) (ds : List Declarator) (ctx : Obj) (v : Value) (s : St)
    (h : runScript n (pre ++ [.varDecl isV ds]) ctx = .ok v s) : v = .undefV := by
  cases n with
  | zero => simp [runScript, evalBlockFull] at h
  | succ m =>
      simp only [runScript, evalBlockFull, filterFns_append] at h
      exact evalStmtList_append_decl_ok _ m isV ds _ v _ s h

/-- Witness for C10: `5; let x = 3;` evaluates to undefined. -/
theorem c10_script_ending_in_declaration_witness :
    Value.undefV = Value.undefV
    ∧ runValue (runScript 7 lastDeclProgram []) = some Value.undefV := by
  constructor
  · exact c10_script_ending_in_declaration 7 [.exprS (.litNum 5)] false
      [.mk "x" 0 (some (.litNum 3))] [] Value.undefV
      { vars := [(0, Value.numV 3)], ctxs := [.objV 0], heap := [[]],
        returning := false, breaking := false, continuing := false }
      (by rfl)
  · rfl

/-- C1: For every identifier whose variable token is unbound in the
binding store, evaluation searches the ambient context stack from
innermost outward by textual name and reads the property off the first
context that binds it; if no context binds the name a reference error is
raised — except that `typeof` on such a bare identifier yields the string
"undefined". -/
theorem c1_identifier_resolution (n : Nat) (name : String) (v : Nat) (s : St)
    (hv : lookupVar s.vars v = none) :
    (∀ (pre : List Value) (c : Value) (rest : List Value),
        s.ctxs = pre ++ c :: rest →
        (∀ c' ∈ pre, ctxHas s.heap c' name = false) →
        ctxHas s.heap c name = true →
        evalExpr (n + 2) (.ident name v) s = getProp n c name s)
    ∧ ((∀ c' ∈ s.ctxs, ctxHas s.heap c' name = false) →
        evalExpr (n + 2) (.ident name v) s = .err (.refErr name) s
        ∧ evalExpr (n + 3) (.unary .typeofOp (.ident name v)) s =
            .ok (.strV "undefined") s) := by
  constructor
  · intro pre c rest hctxs hall hc
    simp only [evalExpr, getRuntimeValue, hv, hctxs,
      findCtx_first_hit s.heap name pre c rest hall hc]
  · intro hall
    have hnone := findCtx_eq_none_of_all_misses s.heap name s.ctxs hall
    refine ⟨?_, ?_⟩
    · simp only [evalExpr, getRuntimeValue, hv, hnone]
    · simp only [evalExpr, getRuntimeValue, hv, hnone]

/-- Witness for C1: an ambient hit resolves through the context object,
and an unresolved name raises while its typeof yields "undefined". -/
theorem c1_identifier_resolution_witness :
    evalExpr 5 (.ident "x" 0) (initSt [("x", PropCell.dataC (.numV 7))]) =
      .ok (.numV 7) (initSt [("x", PropCell.dataC (.numV 7))])
    ∧ evalExpr 5 (.ident "x" 0) (initSt []) = .err (.refErr "x") (initSt [])
    ∧ evalExpr 6 (.unary .typeofOp (.ident "x" 0)) (initSt []) =
        .ok (.strV "undefined") (initSt []) := by
  refine ⟨?_, ?_, ?_⟩
  · exact ((c1_identifier_resolution 3 "x" 0 _ (by rfl)).1 [] (.objV 0) [] rfl
      (fun c' hc' => absurd hc' (List.not_mem_nil c')) (by rfl)).trans (by rfl)
  · exact ((c1_identifier_resolution 3 "x" 0 _ (by rfl)).2
      (by intro c' hc'; simp [initSt] at hc'; subst hc'; rfl)).1
  · exact ((c1_identifier_resolution 3 "x" 0 _ (by rfl)).2
      (by intro c' hc'; simp [initSt] at hc'; subst hc'; rfl)).2

/-- C3: For every binary expression, the left operand is evaluated first
and the right operand is passed to the operator primitive as a thunk; for
`&&` the thunk is forced exactly when the left value is truthy, for `||`
exactly when it is falsy, for `,` always, and for every other operator it
is forced immediately — so the right operand's side effects (its state
transformation from the post-left state) occur exactly when the operator's
semantics require its evaluation. -/
theorem c3_short_circuit_evaluation (n : Nat) (op : BinOp) (l r : Expr)
    (s : St) (lv : Value) (s1 : St) (h : evalExpr n l s = .ok lv s1) :
    (op = .andOp →
        evalExpr (n + 1) (.binary op l r) s =
          bif truthy lv then evalExpr n r s1 else .ok lv s1)
    ∧ (op = .orOp →
        evalExpr (n + 1) (.binary op l r) s =
          bif truthy lv then .ok lv s1 else evalExpr n r s1)
    ∧ (op = .comma → evalExpr (n + 1) (.binary op l r) s = evalExpr n r s1)
    ∧ (op.short = false →
        evalExpr (n + 1) (.binary op l r) s =
          match evalExpr n r s1 with
          | .ok rv s2 => applyBinStrict op lv rv s2
          | .err e s2 => .err e s2) := by
  have hunf : evalExpr (n + 1) (.binary op l r) s = binOpFn op lv (evalExpr n r) s1 := by
    simp only [evalExpr, h]
  refine ⟨?_, ?_, ?_, ?_⟩
  · intro hop; rw [hop] at hunf ⊢; rw [hunf]; rfl
  · intro hop; rw [hop] at hunf ⊢; rw [hunf]; rfl
  · intro hop; rw [hop] at hunf ⊢; rw [hunf]; rfl
  · intro hs
    rw [hunf]
    cases op <;> first
      | exact absurd hs (by decide)
      | (simp only [binOpFn]
         cases hr : evalExpr n r s1 <;> simp [Res.bind, hr])

/-- Witness for C3: with a falsy left operand, `&&` skips the assignment
in its right operand (state unchanged); with a truthy left operand the
assignment runs; `+` always runs it. -/
theorem c3_short_circuit_evaluation_witness :
    evalExpr 3 (.binary .andOp (.litBool false) (.assignVar "x" 0 (.litNum 1)))
        (initSt []) = .ok (.boolV false) (initSt [])
    ∧ evalExpr 3 (.binary .andOp (.litBool true) (.assignVar "x" 0 (.litNum 1)))
        (initSt []) =
        .ok (.numV 1) { initSt [] with vars := [(0, .numV 1)] }
    ∧ evalExpr 3 (.binary .add (.litNum 5) (.assignVar "x" 0 (.litNum 1)))
        (initSt []) =
        .ok (.numV 6) { initSt [] with vars := [(0, .numV 1)] } := by
  refine ⟨?_, ?_, ?_⟩
  · exact ((c3_short_circuit_evaluation 2 .andOp (.litBool false)
      (.assignVar "x" 0 (.litNum 1)) (initSt []) (.boolV false) (initSt [])
      (by rfl)).1 rfl).trans (by rfl)
  · exact ((c3_short_circuit_evaluation 2 .andOp (.litBool true)
      (.assignVar "x" 0 (.litNum 1)) (initSt []) (.boolV true) (initSt [])
      (by rfl)).1 rfl).trans (by rfl)
  · exact ((c3_short_circuit_evaluation 2 .add (.litNum 5)
      (.assignVar "x" 0 (.litNum 1)) (initSt []) (.numV 5) (initSt [])
      (by rfl)).2.2.2 rfl).trans (by rfl)

/-- C2 counterexample: the claim says the call yields the nested return's
value for a return nested in any sub-statement, but for a return nested in
a loop the loop handler returns undefined and `loopBlock` consults only
the breaking/continuing flags, so
`function g(){ for (let i = 0; i < 1; i = i + 1) { return 'in'; } } g();`
evaluates to undefined, not "in". -/
theorem c2_counterexample :
    runValue (runScript 15 returnInLoopProgram []) = some Value.undefV
    ∧ Value.undefV ≠ Value.strV "in" := by
  constructor
  · simp +decide [returnInLoopProgram, runScript, runValue, initSt, evalBlockFull,
      evalStmtList, evalStmt, evalExpr, evalVarDecls, evalOptExpr, evalForIter,
      evalLoopBlock, evalLoopStmts, evalFnStmts, evalFnBody, evalWhileIter,
      evalDoWhileIter, evalArgs, applyCall, callFn, getProp, setProp,
      getRuntimeValue, evalObjProps, hoistFunctions, hoistVars, filterFns,
      Stmt.isFnDecl, setVar, lookupVar, Res.bind, binOpFn, applyBinStrict, applyUnary,
      truthy, jsAdd, toPrimitive, primToNum, primToStr, jsLt, jsLe, jsGt, jsGe,
      jsSub, jsMul, currentCtx, pushCtx, popCtx, ctxHas, findCtx, heapGet,
      heapSet, objGetCell, objSetData, Err.catchable, errToValue, bindParams,
      batchSet, applyBatch, objDefineAccessor, jsEqLoose, jsEqStrict, numRes]
  · intro h; cases h

/-- C2 (amended): evaluation of a function body stops after the first
top-level statement whose evaluation sets the returning flag — no later
statement of the body is evaluated, and the call yields the value that
statement produced.  An if statement propagates a nested return's value,
so the concrete program of the claim yields "in"; a loop statement
discards it, so a return nested in a loop yields undefined to the
caller. -/
theorem c2_function_body_stops_on_return :
    (∀ (n : Nat) (stmt : Stmt) (rest : List Stmt) (v0 : Value) (s : St)
        (v' : Value) (s' : St),
        evalStmt n stmt s = .ok v' s' → s'.returning = true →
        evalFnStmts (n + 1) (stmt :: rest) v0 s = .ok v' s')
    ∧ runValue (runScript 12 returnInIfProgram []) = some (.strV "in")
    ∧ runValue (runScript 15 returnInLoopProgram []) = some Value.undefV := by
  refine ⟨?_, ?_, ?_⟩
  · intro n stmt rest v0 s v' s' h hret
    simp only [evalFnStmts, h, hret, cond_true]
  · simp +decide [returnInIfProgram, runScript, runValue, initSt, evalBlockFull,
      evalStmtList, evalStmt, evalExpr, evalVarDecls, evalOptExpr, evalForIter,
      evalLoopBlock, evalLoopStmts, evalFnStmts, evalFnBody, evalWhileIter,
      evalDoWhileIter, evalArgs, applyCall, callFn, getProp, setProp,
      getRuntimeValue, evalObjProps, hoistFunctions, hoistVars, filterFns,
      Stmt.isFnDecl, setVar, lookupVar, Res.bind, binOpFn, applyBinStrict, applyUnary,
      truthy, jsAdd, toPrimitive, primToNum, primToStr, jsLt, jsLe, jsGt, jsGe,
      jsSub, jsMul, currentCtx, pushCtx, popCtx, ctxHas, findCtx, heapGet,
      heapSet, objGetCell, objSetData, Err.catchable, errToValue, bindParams,
      batchSet, applyBatch, objDefineAccessor, jsEqLoose, jsEqStrict, numRes]
  · simp +decide [returnInLoopProgram, runScript, runValue, initSt, evalBlockFull,
      evalStmtList, evalStmt, evalExpr, evalVarDecls, evalOptExpr, evalForIter,
      evalLoopBlock, evalLoopStmts, evalFnStmts, evalFnBody, evalWhileIter,
      evalDoWhileIter, evalArgs, applyCall, callFn, getProp, setProp,
      getRuntimeValue, evalObjProps, hoistFunctions, hoistVars, filterFns,
      Stmt.isFnDecl, setVar, lookupVar, Res.bind, binOpFn, applyBinStrict, applyUnary,
      truthy, jsAdd, toPrimitive, primToNum, primToStr, jsLt, jsLe, jsGt, jsGe,
      jsSub, jsMul, currentCtx, pushCtx, popCtx, ctxHas, findCtx, heapGet,
      heapSet, objGetCell, objSetData, Err.catchable, errToValue, bindParams,
      batchSet, applyBatch, objDefineAccessor, jsEqLoose, jsEqStrict, numRes]

/-- Witness for C2: a return statement sets the flag and the walk stops
with its value, skipping the rest of the body. -/
theorem c2_function_body_stops_on_return_witness :
    evalFnStmts 4 [.retS (some (.litStr "z")), .retS (some (.litStr "w"))]
        Value.undefV (initSt []) =
      .ok (.strV "z") { initSt [] with returning := true } :=
  c2_function_body_stops_on_return.1 3 (.retS (some (.litStr "z")))
    [.retS (some (.litStr "w"))] Value.undefV (initSt []) (.strV "z")
    { initSt [] with returning := true } (by rfl) rfl

/-- C5: For every try/finally statement, with or without a catch clause,
the finalizer block is evaluated both when the protected body completes
normally and when it completes abruptly, and on normal completion of the
body (or of the catch clause) the finalizer's evaluation replaces the
previous value as the statement's result; on an abrupt (thrown) completion
the finalizer still runs before the exception is re-raised.  Concretely, a
finalizer overwrites a pending return value: `function h(){ try { return
1; } finally { 2; } } h();` yields 2. -/
theorem c5_try_finally_finalizer (n : Nat) (b fin : List Stmt) (s : St) :
    (∀ (v : Value) (s1 : St), evalBlockFull n b s = .ok v s1 →
        evalStmt (n + 1) (.tryFinallyS b none fin) s = evalBlockFull n fin s1)
    ∧ (∀ (e : Err) (s1 : St) (fv : Value) (s2 : St),
        evalBlockFull n b s = .err e s1 → e.catchable = true →
        evalBlockFull n fin s1 = .ok fv s2 →
        evalStmt (n + 1) (.tryFinallyS b none fin) s = .err e s2)
    ∧ (∀ (pn : String) (pv : Nat) (handler : List Stmt) (v : Value) (s1 : St),
        evalBlockFull n b s = .ok v s1 →
        evalStmt (n + 1) (.tryFinallyS b (some (pn, pv, handler)) fin) s =
          evalBlockFull n fin s1)
    ∧ (∀ (pn : String) (pv : Nat) (handler : List Stmt) (e : Err) (s1 : St)
        (cv : Value) (s2 : St),
        evalBlockFull n b s = .err e s1 → e.catchable = true →
        evalBlockFull n handler
          { s1 with vars := setVar s1.vars pv (errToValue e) } = .ok cv s2 →
        evalStmt (n + 1) (.tryFinallyS b (some (pn, pv, handler)) fin) s =
          evalBlockFull n fin s2)
    ∧ runValue (runScript 14 finallyOverwriteProgram []) = some (.numV 2) := by
  refine ⟨?_, ?_, ?_, ?_, ?_⟩
  · intro v s1 hb
    simp only [evalStmt, hb]
  · intro e s1 fv s2 hb hcat hf
    simp only [evalStmt, hb, hcat, cond_true, hf]
  · intro pn pv handler v s1 hb
    simp only [evalStmt, hb]
  · intro pn pv handler e s1 cv s2 hb hcat hh
    simp only [evalStmt, hb, hcat, cond_true, hh]
  · simp +decide [finallyOverwriteProgram, runScript, runValue, initSt,
      evalBlockFull, evalStmtList, evalStmt, evalExpr, evalVarDecls, evalOptExpr,
      evalForIter, evalLoopBlock, evalLoopStmts, evalFnStmts, evalFnBody,
      evalWhileIter, evalDoWhileIter, evalArgs, applyCall, callFn, getProp,
      setProp, getRuntimeValue, evalObjProps, hoistFunctions, hoistVars,
      filterFns, Stmt.isFnDecl, setVar, lookupVar, Res.bind, binOpFn,
      applyBinStrict, applyUnary, truthy, jsAdd, toPrimitive, primToNum,
      primToStr, jsLt, jsLe, jsGt, jsGe, jsSub, jsMul, currentCtx, pushCtx,
      popCtx, ctxHas, findCtx, heapGet, heapSet, objGetCell, objSetData,
      Err.catchable, errToValue, bindParams, batchSet, applyBatch,
      objDefineAccessor, jsEqLoose, jsEqStrict, numRes]

/-- Witness for C5: a body that returns 1 completes normally with the
returning flag set, and the statement's result is the finalizer's
evaluation from that state. -/
theorem c5_try_finally_finalizer_witness :
    evalStmt 6 (.tryFinallyS [.retS (some (.litNum 1))] none
        [.exprS (.litNum 2)]) (initSt []) =
      evalBlockFull 5 [.exprS (.litNum 2)] { initSt [] with returning := true } :=
  (c5_try_finally_finalizer 5 [.retS (some (.litNum 1))] [.exprS (.litNum 2)]
    (initSt [])).1 (.numV 1) { initSt [] with returning := true } (by rfl)

/-- C6: Before a block, function body or script is walked, its function
declarations are installed as bindings of their tokens to freshly
constructed callables and its `var` declarators are pre-declared to
undefined; the statement walk then filters out function declaration nodes,
so a call placed before the function declaration it refers to succeeds:
`a(); function a(){ return 2 }` evaluates to 2. -/
theorem c6_hoisting (stmts : List Stmt) (s : St) :
    (∀ (name : String) (v : Nat) (fn : FnDef),
        Stmt.funcDecl name v fn ∈ stmts →
        (∀ name' fn', Stmt.funcDecl name' v fn' ∈ stmts → name' = name ∧ fn' = fn) →
        lookupVar (hoistFunctions stmts s).vars v = some (.closure fn))
    ∧ (∀ (ds : List Declarator) (name : String) (v : Nat) (init : Option Expr),
        Stmt.varDecl true ds ∈ stmts → Declarator.mk name v init ∈ ds →
        lookupVar (hoistVars stmts s).vars v = some .undefV)
    ∧ (∀ st ∈ filterFns stmts, st.isFnDecl = false)
    ∧ runValue (runScript 12 forwardCallProgram []) = some (.numV 2) := by
  refine ⟨?_, ?_, ?_, ?_⟩
  · intro name v fn hm huniq
    exact hoistFunctions_lookup_mem stmts s name v fn hm huniq
  · intro ds name v init hm hd
    exact hoistVars_lookup_mem stmts s ds name v init hm hd
  · intro st hm
    exact mem_filterFns_not_fnDecl stmts st hm
  · simp +decide [forwardCallProgram, runScript, runValue, initSt,
      evalBlockFull, evalStmtList, evalStmt, evalExpr, evalVarDecls, evalOptExpr,
      evalForIter, evalLoopBlock, evalLoopStmts, evalFnStmts, evalFnBody,
      evalWhileIter, evalDoWhileIter, evalArgs, applyCall, callFn, getProp,
      setProp, getRuntimeValue, evalObjProps, hoistFunctions, hoistVars,
      filterFns, Stmt.isFnDecl, setVar, lookupVar, Res.bind, binOpFn,
      applyBinStrict, applyUnary, truthy, jsAdd, toPrimitive, primToNum,
      primToStr, jsLt, jsLe, jsGt, jsGe, jsSub, jsMul, currentCtx, pushCtx,
      popCtx, ctxHas, findCtx, heapGet, heapSet, objGetCell, objSetData,
      Err.catchable, errToValue, bindParams, batchSet, applyBatch,
      objDefineAccessor, jsEqLoose, jsEqStrict, numRes]

/-- Witness for C6: hoisting the forward-call program binds token 0 of
`a` to the callable of its declaration. -/
theorem c6_hoisting_witness :
    lookupVar (hoistFunctions forwardCallProgram (initSt [])).vars 0 =
      some (.closure (.mk [] [.retS (some (.litNum 2))])) :=
  (c6_hoisting forwardCallProgram (initSt [])).1 "a" 0
    (.mk [] [.retS (some (.litNum 2))])
    (List.Mem.tail _ (List.Mem.head _))
    (by
      intro n' f' hm
      simp only [forwardCallProgram, List.mem_cons, List.mem_singleton] at hm
      rcases hm with hm | hm
      · cases hm
      · rcases hm with hm | hm
        · injection hm with h1 h2 h3
          exact ⟨h1, h3⟩
        · cases hm)

/-- C8: An object literal with getter and/or setter properties for a name
installs that name as an accessor cell — which by construction carries no
data value, with an absent half left undefined — and every subsequent
write to the property invokes the setter while every read invokes the
getter, each with the object as receiver; concretely, `let a = { set b(c)
{this._b = c + 10}, get b(){return this._b} }; a.b = 22; a.b;` yields
32. -/
theorem c8_accessor_properties (n : Nat) (s : St) (gfn sfn : FnDef) :
    (evalExpr (n + 4) (.objectLit [.setter "b" sfn, .getter "b" gfn]) s =
        .ok (.objV s.heap.length)
          { s with heap := s.heap ++ [[("b", PropCell.accessor (some gfn) (some sfn))]] })
    ∧ (evalExpr (n + 3) (.objectLit [.getter "b" gfn]) s =
        .ok (.objV s.heap.length)
          { s with heap := s.heap ++ [[("b", PropCell.accessor (some gfn) none)]] })
    ∧ (∀ (m : Nat) (a : Nat) (k : String) (v : Value) (g : Option FnDef)
        (setter : FnDef),
        objGetCell (heapGet s.heap a) k = some (.accessor g (some setter)) →
        setProp (m + 1) (.objV a) k v s =
          match callFn m setter [v] (.objV a) s with
          | .ok _ s1 => .ok v s1
          | .err er s1 => .err er s1)
    ∧ (∀ (m : Nat) (a : Nat) (k : String) (g : FnDef) (so : Option FnDef),
        objGetCell (heapGet s.heap a) k = some (.accessor (some g) so) →
        getProp (m + 1) (.objV a) k s = callFn m g [] (.objV a) s)
    ∧ runValue (runScript 14 accessorProgram []) = some (.numV 32) := by
  refine ⟨?_, ?_, ?_, ?_, ?_⟩
  · simp [evalExpr, evalObjProps, batchSet, applyBatch, objDefineAccessor]
  · simp [evalExpr, evalObjProps, batchSet, applyBatch, objDefineAccessor]
  · intro m a k v g setter hcell
    simp only [setProp, hcell]
  · intro m a k g so hcell
    simp only [getProp, hcell]
  · simp +decide [accessorProgram, runScript, runValue, initSt,
      evalBlockFull, evalStmtList, evalStmt, evalExpr, evalVarDecls, evalOptExpr,
      evalForIter, evalLoopBlock, evalLoopStmts, evalFnStmts, evalFnBody,
      evalWhileIter, evalDoWhileIter, evalArgs, applyCall, callFn, getProp,
      setProp, getRuntimeValue, evalObjProps, hoistFunctions, hoistVars,
      filterFns, Stmt.isFnDecl, setVar, lookupVar, Res.bind, binOpFn,
      applyBinStrict, applyUnary, truthy, jsAdd, toPrimitive, primToNum,
      primToStr, jsLt, jsLe, jsGt, jsGe, jsSub, jsMul, currentCtx, pushCtx,
      popCtx, ctxHas, findCtx, heapGet, heapSet, objGetCell, objSetData,
      Err.catchable, errToValue, bindParams, batchSet, applyBatch,
      objDefineAccessor, jsEqLoose, jsEqStrict, numRes]

/-- Witness for C8: on a heap whose object holds an accessor property, a
write dispatches to the setter and a read to the getter. -/
theorem c8_accessor_properties_witness :
    setProp 4 (.objV 0) "p" (.numV 1)
        (initSt [("p", PropCell.accessor (some (.mk [] [])) (some (.mk [] [])))]) =
      .ok (.numV 1)
        (initSt [("p", PropCell.accessor (some (.mk [] [])) (some (.mk [] [])))])
    ∧ getProp 4 (.objV 0) "p"
        (initSt [("p", PropCell.accessor (some (.mk [] [])) (some (.mk [] [])))]) =
      .ok .undefV
        (initSt [("p", PropCell.accessor (some (.mk [] [])) (some (.mk [] [])))]) := by
  constructor
  · exact ((c8_accessor_properties 0
      (initSt [("p", PropCell.accessor (some (.mk [] [])) (some (.mk [] [])))])
      (.mk [] []) (.mk [] [])).2.2.1 3 0 "p" (.numV 1) (some (.mk [] []))
      (.mk [] []) (by rfl)).trans (by rfl)
  · exact ((c8_accessor_properties 0
      (initSt [("p", PropCell.accessor (some (.mk [] [])) (some (.mk [] [])))])
      (.mk [] []) (.mk [] [])).2.2.2.1 3 0 "p" (.mk [] []) (some (.mk [] []))
      (by rfl)).trans (by rfl)

/-- C7 counterexample: the claim says the breaking and continuing flags
are checked and cleared by the nearest enclosing loop and never affect an
outer loop.  But the Block handler consults no flags, so a nested plain
block `{ continue; break; }` sets both; the enclosing for loop then exits
on the breaking flag and clears only it, leaving the continuing flag set
after the loop statement completes — and that leaked flag advances the
outer loop of `signalLeakProgram`, which therefore yields 0 (the statement
`r = r + 1` after the inner loop is skipped on every iteration) instead of
the 3 isolation would give. -/
theorem c7_counterexample :
    (match evalStmt 10 leakingInnerLoop (initSt []) with
     | .ok _ s' => s'.continuing
     | .err _ _ => false) = true
    ∧ runValue (runScript 18 signalLeakProgram []) = some (.numV 0) := by
  constructor
  · simp +decide [leakingInnerLoop, initSt, evalBlockFull, evalStmtList,
      evalStmt, evalExpr, evalVarDecls, evalOptExpr, evalForIter, evalLoopBlock,
      evalLoopStmts, evalFnStmts, evalFnBody, evalWhileIter, evalDoWhileIter,
      evalArgs, applyCall, callFn, getProp, setProp, getRuntimeValue,
      evalObjProps, hoistFunctions, hoistVars, filterFns, Stmt.isFnDecl, setVar,
      lookupVar, Res.bind, binOpFn, applyBinStrict, applyUnary, truthy, jsAdd,
      toPrimitive, primToNum, primToStr, jsLt, jsLe, jsGt, jsGe, jsSub, jsMul,
      currentCtx, pushCtx, popCtx, ctxHas, findCtx, heapGet, heapSet, objGetCell,
      objSetData, Err.catchable, errToValue, bindParams, batchSet, applyBatch,
      objDefineAccessor, jsEqLoose, jsEqStrict, numRes]
  · simp +decide [signalLeakProgram, leakingInnerLoop, runScript, runValue,
      initSt, evalBlockFull, evalStmtList, evalStmt, evalExpr, evalVarDecls,
      evalOptExpr, evalForIter, evalLoopBlock, evalLoopStmts, evalFnStmts,
      evalFnBody, evalWhileIter, evalDoWhileIter, evalArgs, applyCall, callFn,
      getProp, setProp, getRuntimeValue, evalObjProps, hoistFunctions, hoistVars,
      filterFns, Stmt.isFnDecl, setVar, lookupVar, Res.bind, binOpFn,
      applyBinStrict, applyUnary, truthy, jsAdd, toPrimitive, primToNum,
      primToStr, jsLt, jsLe, jsGt, jsGe, jsSub, jsMul, currentCtx, pushCtx,
      popCtx, ctxHas, findCtx, heapGet, heapSet, objGetCell, objSetData,
      Err.catchable, errToValue, bindParams, batchSet, applyBatch,
      objDefineAccessor, jsEqLoose, jsEqStrict, numRes]

/-- C7 (amended): a break or continue statement terminates or advances the
nearest enclosing loop and the statements following the loop still
execute — the nested-break scenario yields 3 and the nested-continue
scenario yields 21 — except that a loop exiting via break clears only the
breaking flag: when a nested non-loop block has also set the continuing
flag during the same pass over the loop body, that flag leaks to the
nearest enclosing outer loop and advances it, as in the leak program,
which yields 0. -/
theorem c7_break_continue_nearest_loop :
    runValue (runScript 15 nestedBreakProgram []) = some (.numV 3)
    ∧ runValue (runScript 23 nestedContinueProgram []) = some (.numV 21)
    ∧ runValue (runScript 18 signalLeakProgram []) = some (.numV 0) := by
  refine ⟨?_, ?_, ?_⟩
  · simp +decide [nestedBreakProgram, runScript, runValue, initSt, evalBlockFull,
      evalStmtList, evalStmt, evalExpr, evalVarDecls, evalOptExpr, evalForIter,
      evalLoopBlock, evalLoopStmts, evalFnStmts, evalFnBody, evalWhileIter,
      evalDoWhileIter, evalArgs, applyCall, callFn, getProp, setProp,
      getRuntimeValue, evalObjProps, hoistFunctions, hoistVars, filterFns,
      Stmt.isFnDecl, setVar, lookupVar, Res.bind, binOpFn, applyBinStrict,
      applyUnary, truthy, jsAdd, toPrimitive, primToNum, primToStr, jsLt, jsLe,
      jsGt, jsGe, jsSub, jsMul, currentCtx, pushCtx, popCtx, ctxHas, findCtx,
      heapGet, heapSet, objGetCell, objSetData, Err.catchable, errToValue,
      bindParams, batchSet, applyBatch, objDefineAccessor, jsEqLoose,
      jsEqStrict, numRes]
  · simp +decide [nestedContinueProgram, runScript, runValue, initSt,
      evalBlockFull, evalStmtList, evalStmt, evalExpr, evalVarDecls, evalOptExpr,
      evalForIter, evalLoopBlock, evalLoopStmts, evalFnStmts, evalFnBody,
      evalWhileIter, evalDoWhileIter, evalArgs, applyCall, callFn, getProp,
      setProp, getRuntimeValue, evalObjProps, hoistFunctions, hoistVars,
      filterFns, Stmt.isFnDecl, setVar, lookupVar, Res.bind, binOpFn,
      applyBinStrict, applyUnary, truthy, jsAdd, toPrimitive, primToNum,
      primToStr, jsLt, jsLe, jsGt, jsGe, jsSub, jsMul, currentCtx, pushCtx,
      popCtx, ctxHas, findCtx, heapGet, heapSet, objGetCell, objSetData,
      Err.catchable, errToValue, bindParams, batchSet, applyBatch,
      objDefineAccessor, jsEqLoose, jsEqStrict, numRes]
  · simp +decide [signalLeakProgram, leakingInnerLoop, runScript, runValue,
      initSt, evalBlockFull, evalStmtList, evalStmt, evalExpr, evalVarDecls,
      evalOptExpr, evalForIter, evalLoopBlock, evalLoopStmts, evalFnStmts,
      evalFnBody, evalWhileIter, evalDoWhileIter, evalArgs, applyCall, callFn,
      getProp, setProp, getRuntimeValue, evalObjProps, hoistFunctions, hoistVars,
      filterFns, Stmt.isFnDecl, setVar, lookupVar, Res.bind, binOpFn,
      applyBinStrict, applyUnary, truthy, jsAdd, toPrimitive, primToNum,
      primToStr, jsLt, jsLe, jsGt, jsGe, jsSub, jsMul, currentCtx, pushCtx,
      popCtx, ctxHas, findCtx, heapGet, heapSet, objGetCell, objSetData,
      Err.catchable, errToValue, bindParams, batchSet, applyBatch,
      objDefineAccessor, jsEqLoose, jsEqStrict, numRes]
